import Mathlib

/-!
Verification of the correlation-context engine
(preludecorrelator/context.py): time-window intersection and merge,
context update/expiry, name construction, the timer scheduler, and
registry search.  Timestamps are modelled as integers; `-1` is the
sentinel for an unbounded upper window edge, exactly as in the source.
-/

set_option maxRecDepth 40000

namespace PreludeCorrelator

/-- `_IDMEF_QUEUE_LIMIT = 256` from context.py. -/
def idmefQueueLimit : Nat := 256

/-- `sys.maxsize` on a 64-bit host, used by `wakeup` to reset `_next_wakeup`. -/
def sysMaxsize : Int := 9223372036854775807

/-- Core of `Context._intersect`: the current window is
`(time_min, time_max)` (with `time_max = -1` meaning unbounded) and the
candidate window is `(itmin, itmax)`.  Mirrors the condition

`(itmin <= self._time_min and (self._time_max == -1 or itmax >= self._time_min)) or
 (itmin >= self._time_min and (self._time_max == -1 or itmin <= self._time_max))`

returning `(min(itmin, self._time_min), max(itmax, self._time_max))` on success. -/
def intersectW (time_min time_max itmin itmax : Int) : Option (Int × Int) :=
  if (itmin ≤ time_min ∧ (time_max = -1 ∨ itmax ≥ time_min)) ∨
     (itmin ≥ time_min ∧ (time_max = -1 ∨ itmin ≤ time_max)) then
    some (min itmin time_min, max itmax time_max)
  else
    none

/-- The `alert_on_expire` option: Python stores `False`, `True`, or a
callable there.  Callables are identified by an index into an external
callback environment. -/
inductive AlertOnExpire where
  | off
  | on
  | cb (k : Nat)
  deriving DecidableEq, Repr

/-- Python truthiness of the `alert_on_expire` option
(`False` is falsy; `True` and any callable are truthy). -/
def AlertOnExpire.truthy : AlertOnExpire → Bool
  | .off => false
  | _ => true

/-- The `_options` dictionary of a Context:
`{"threshold": -1, "expire": 0, "alert_on_expire": False}` by default. -/
structure Options where
  threshold : Int
  expire : Int
  alert_on_expire : AlertOnExpire
  deriving DecidableEq, Repr

/-- A partial options dictionary passed to `setOptions` / `update`
(Python `dict.update` semantics: present keys overwrite). -/
structure OptPatch where
  threshold : Option Int
  expire : Option Int
  alert_on_expire : Option AlertOnExpire
  deriving DecidableEq, Repr

/-- `self._options.update(options)`. -/
def Options.applyPatch (o : Options) (p : OptPatch) : Options :=
  { threshold := p.threshold.getD o.threshold,
    expire := p.expire.getD o.expire,
    alert_on_expire := p.alert_on_expire.getD o.alert_on_expire }

/-- Modelled from the spec: the alert-accumulation record of the external
IDMEF class (not part of the analysed sources) holds the originating
alerts' source, target and correlation-identifier references; absorbing
another record appends, it does not replace. -/
structure AccRecord where
  sources : List String
  targets : List String
  alertidents : List String
  deriving DecidableEq, Repr

/-- An incoming event, reduced to the parts the context engine reads:
its timestamp and the references recorded by `addAlertReference`. -/
structure Event where
  time : Int
  sources : List String
  targets : List String
  ident : String
  deriving DecidableEq, Repr

/-- A correlation Context: name, time window, update counter, options,
the embedded Timer's fields (`_timer_start`, `_timer_expire`), and the
embedded alert-accumulation record. -/
structure Context where
  name : String
  time_min : Int
  time_max : Int
  update_count : Nat
  options : Options
  timer_start : Option Int
  timer_expire : Int
  acc : AccRecord
  deriving DecidableEq, Repr

/-- `Context._intersect` applied to another Context
(`itmin = idmef._time_min`, `itmax = idmef._time_max`). -/
def Context.intersectCtx (self other : Context) : Option (Int × Int) :=
  intersectW self.time_min self.time_max other.time_min other.time_max

/-- `Context._intersect` applied to an event of timestamp `itime`
(`itmin = itime - expire`, `itmax = itime + expire`). -/
def Context.intersectEvent (self : Context) (itime : Int) : Option (Int × Int) :=
  intersectW self.time_min self.time_max
    (itime - self.options.expire) (itime + self.options.expire)

/-- `Context.checkTimeWindow(idmef, update)`: intersect with the event's
derived window; on success and `update`, commit `time_min := i[0]` and
`time_max := i[1]` only when `time_max != -1`. -/
def Context.checkTimeWindow (c : Context) (itime : Int) (update : Bool) :
    Bool × Context :=
  match c.intersectEvent itime with
  | none => (false, c)
  | some i =>
    if update then
      (true, { c with time_min := i.1,
                      time_max := if c.time_max ≠ -1 then i.2 else c.time_max })
    else
      (true, c)

/-- `Context.merge(ctx)` minus the final `ctx.destroy()` (the registry
effect of `destroy` is modelled separately at bucket level):
sum the update counters, take the componentwise min/max of the windows,
and append the other record's references. -/
def Context.mergeCtx (self ctx : Context) : Context :=
  { self with
    update_count := self.update_count + ctx.update_count,
    time_min := min self.time_min ctx.time_min,
    time_max := max self.time_max ctx.time_max,
    acc := { sources := self.acc.sources ++ ctx.acc.sources,
             targets := self.acc.targets ++ ctx.acc.targets,
             alertidents := self.acc.alertidents ++ ctx.acc.alertidents } }

/-- `_CONTEXT_TABLE[self._name].remove(self)` inside `Context.destroy`:
remove the first occurrence of the context from its registry bucket. -/
def destroyFromBucket (bucket : List Context) (c : Context) : List Context :=
  bucket.erase c

/-- The local effect of `Context.destroy()` on the context itself:
`self.stop()` clears `_timer_start` (registry removal is bucket-level). -/
def Context.destroyLocal (c : Context) : Context :=
  { c with timer_start := none }

/-- What a context expiry did, as observed by the caller. -/
inductive ExpireAction where
  | alertCallback (k : Nat)
  | alertEmitDestroy
  | silentDestroy
  deriving DecidableEq, Repr

/-- Did the expiry take the alert path (`Context._alert`)? -/
def ExpireAction.isAlert : ExpireAction → Bool
  | .silentDestroy => false
  | _ => true

/-- Environment of rule-supplied `alert_on_expire` callables: each may
mutate the context and may raise (the `Option String` is the exception). -/
def CtxCbs : Type := Nat → Context → Context × Option String

/-- `Context._alert`: a callable `alert_on_expire` is invoked with the
context; otherwise (default) `self.alert()` emits the accumulated alert
and `self.destroy()` runs.  The emission itself is external (IDMEF);
locally the default path stops the timer via destroy. -/
def Context.alertPath (cbs : CtxCbs) (c : Context) :
    Context × ExpireAction × Option String :=
  match c.options.alert_on_expire with
  | .cb k =>
    let r := cbs k c
    (r.1, .alertCallback k, r.2)
  | _ => (c.destroyLocal, .alertEmitDestroy, none)

/-- `Context._timerExpireCallback`: if `alert_on_expire` is truthy and
the threshold is unset (`-1`) or `update_count + 1 >= threshold`, take
the alert path; otherwise `self.destroy()`.  Note: unlike
`Timer._timerExpireCallback`, there is no exception handler here. -/
def Context.timerExpireCb (cbs : CtxCbs) (c : Context) :
    Context × ExpireAction × Option String :=
  if c.options.alert_on_expire.truthy ∧
     (c.options.threshold = -1 ∨
       c.options.threshold ≤ (c.update_count : Int) + 1) then
    c.alertPath cbs
  else
    (c.destroyLocal, .silentDestroy, none)

/-- `Timer.start(reset)` as it acts on the timer's own fields:
return unchanged when `not self._timer_expire` (i.e. `expire = 0`) or
when already running and not resetting; otherwise set
`_timer_start := now`.  (Registration in `_TIMER_LIST` and the
`_next_wakeup` update are scheduler-level and modelled there.) -/
def Context.timerStart (c : Context) (reset : Bool) (now : Int) : Context :=
  if c.timer_expire = 0 ∨ (c.timer_start.isSome ∧ ¬reset) then c
  else { c with timer_start := some now }

/-- `Context.setOptions(options)`: merge the patch into `_options`, then
`Timer.setExpire(self, options["expire"])` and `Timer.start(self)`. -/
def Context.setOptions (c : Context) (p : OptPatch) (now : Int) : Context :=
  let opts := c.options.applyPatch p
  let c1 := { c with options := opts, timer_expire := opts.expire }
  c1.timerStart false now

/-- Modelled from the spec: `IDMEF.addAlertReference` (external class) records
the event's source/target references and one correlation identifier into
the alert-accumulation record (append, not replace). -/
def Context.addAlertReference (c : Context) (e : Event) : Context :=
  { c with acc := { sources := c.acc.sources ++ e.sources,
                    targets := c.acc.targets ++ e.targets,
                    alertidents := c.acc.alertidents ++ [e.ident] } }

/-- Outcome of `Context.update`: either the forced `_alert` return, or a
normal fall-through to the timer-reset/setOptions tail. -/
inductive UpdateOutcome where
  | alerted (act : ExpireAction)
  | normal
  deriving DecidableEq, Repr

/-- Tail of `Context.update` past the queue-limit check:
`if timer_rst and self.running(): self.reset()` then `self.setOptions`. -/
def Context.finishUpdate (c : Context) (p : OptPatch) (timer_rst : Bool)
    (now : Int) : Context × UpdateOutcome × Option String :=
  let c1 := if timer_rst ∧ c.timer_start.isSome then c.timerStart true now else c
  (c1.setOptions p now, .normal, none)

/-- `Context.update(options, idmef, timer_rst)`: increment
`_update_count`; when an event is supplied, `addAlertReference` it and,
if `alert_on_expire` is truthy and `_update_count >= _IDMEF_QUEUE_LIMIT`,
return `self._alert()` immediately; otherwise reset the timer if asked
and running, and re-apply the options. -/
def Context.update (cbs : CtxCbs) (c : Context) (p : OptPatch)
    (ev : Option Event) (timer_rst : Bool) (now : Int) :
    Context × UpdateOutcome × Option String :=
  let c1 := { c with update_count := c.update_count + 1 }
  match ev with
  | some e =>
    let c2 := c1.addAlertReference e
    if c2.options.alert_on_expire.truthy ∧ idmefQueueLimit ≤ c2.update_count then
      let r := c2.alertPath cbs
      (r.1, .alerted r.2.1, r.2.2)
    else
      c2.finishUpdate p timer_rst now
  | none => c1.finishUpdate p timer_rst now

/-! ### Name construction (`getName`), over explicit character lists -/

/-- The inner `escape` of `getName`: `s.replace("_", "\\_")`. -/
def escapeU : List Char → List Char
  | [] => []
  | c :: rest =>
    if c = '_' then '\\' :: '_' :: escapeU rest
    else c :: escapeU rest

/-- `getName(arg)` when `arg` is a single string. -/
def getName1 (s : List Char) : List Char := escapeU s

/-- `getName(arg)` when `arg` is a sequence: escape each component and
join with a literal underscore. -/
def getNameSeq : List (List Char) → List Char
  | [] => []
  | [s] => escapeU s
  | s :: rest => escapeU s ++ '_' :: getNameSeq rest

/-! ### The plain Timer and the scheduler -/

/-- A scheduler-level timer: `_timer_start`, `_timer_expire`, the
identity of its `_timer_cb` in an external callback environment, and a
ghost counter of how many times that callback has been invoked. -/
structure STimer where
  timer_start : Option Int
  timer_expire : Int
  cb_id : Nat
  fired : Nat
  deriving DecidableEq, Repr

/-- Environment of plain-timer callbacks (`self._timer_cb`); a callback
may mutate its timer and may raise. -/
def TimerCbs : Type := Nat → STimer → STimer × Option String

/-- `Timer.stop`. -/
def STimer.stop (t : STimer) : STimer := { t with timer_start := none }

/-- `Timer._timerExpireCallback`: `self.stop()`, then invoke
`self._timer_cb(self)` inside try/except — any exception is caught and
logged, never propagated.  The ghost `fired` counter is bumped at the
invocation. -/
def STimer.timerExpireCb (cbs : TimerCbs) (t : STimer) :
    STimer × Option String :=
  let t1 : STimer := { t.stop with fired := t.fired + 1 }
  let r := cbs t.cb_id t1
  (r.1, none)

/-- `Timer.check(now)`, generic in the state carrying the timer fields
and in the expiry path (the Python call `self._timerExpireCallback()`
dispatches to the subclass override).  Returns the post state, the value
`check` returns (`None` or the remaining time), and a propagated
exception if the expiry path raised. -/
def checkGen {σ : Type} (getStart : σ → Option Int) (getExpire : σ → Int)
    (cbPath : σ → σ × Option String) (s : σ) (now : Int) :
    (σ × Option Int) × Option String :=
  match getStart s with
  | none => ((s, none), none)
  | some st =>
    let elapsed := now - st
    if getExpire s ≤ elapsed then
      let r := cbPath s
      match r.2 with
      | some err => ((r.1, none), some err)
      | none =>
        if (getStart r.1).isSome then
          ((r.1, some (getExpire r.1 - elapsed)), none)
        else
          ((r.1, none), none)
    else
      ((s, some (getExpire s - elapsed)), none)

/-- `Timer.check(now)` for a plain Timer. -/
def STimer.check (cbs : TimerCbs) (t : STimer) (now : Int) :
    (STimer × Option Int) × Option String :=
  checkGen (fun u => u.timer_start) (fun u => u.timer_expire)
    (STimer.timerExpireCb cbs) t now

/-- `Timer.check(now)` for a Context, whose `_timerExpireCallback`
override replaces the guarded plain-timer expiry path. -/
def Context.check (cbs : CtxCbs) (c : Context) (now : Int) :
    (Context × Option Int) × Option String :=
  checkGen (fun u => u.timer_start) (fun u => u.timer_expire)
    (fun u =>
      let r := Context.timerExpireCb cbs u
      (r.1, r.2.2)) c now

/-- The scheduler's global state: `_TIMER_LIST`, `_last_wakeup`,
`_next_wakeup`. -/
structure Sched where
  timer_list : List STimer
  last_wakeup : Int
  next_wakeup : Int
  deriving DecidableEq, Repr

/-- The loop body of `wakeup`: check each timer in registration order,
folding the truthy remaining times into `_next_wakeup` (a returned `0`
is falsy in Python and counts as a stopped result), counting falsy
results in `i`, and aborting — exactly like a propagating exception —
if a check raises.  Returns the processed list, the accumulated
`_next_wakeup`, the falsy count, the number of checks performed
(ghost), and the exception if any. -/
def scanTimers (cbs : TimerCbs) (now : Int) :
    List STimer → Int → Nat → List STimer × Int × Nat × Nat × Option String
  | [], acc_next, acc_i => ([], acc_next, acc_i, 0, none)
  | t :: rest, acc_next, acc_i =>
    let r := STimer.check cbs t now
    match r.2 with
    | some e => (r.1.1 :: rest, acc_next, acc_i, 1, some e)
    | none =>
      match r.1.2 with
      | some ret =>
        if ret ≠ 0 then
          let k := scanTimers cbs now rest (min ret acc_next) acc_i
          (r.1.1 :: k.1, k.2.1, k.2.2.1, k.2.2.2.1 + 1, k.2.2.2.2)
        else
          let k := scanTimers cbs now rest acc_next (acc_i + 1)
          (r.1.1 :: k.1, k.2.1, k.2.2.1, k.2.2.2.1 + 1, k.2.2.2.2)
      | none =>
        let k := scanTimers cbs now rest acc_next (acc_i + 1)
        (r.1.1 :: k.1, k.2.1, k.2.2.1, k.2.2.2.1 + 1, k.2.2.2.2)

/-- `wakeup(now)`: return untouched if `now - _last_wakeup <
_next_wakeup`; otherwise reset `_next_wakeup` to `sys.maxsize`, scan
every timer, prune stopped timers when any check came back falsy, and
set `_last_wakeup := now`.  The `Nat` is the ghost number of timer
checks performed. -/
def wakeup (cbs : TimerCbs) (s : Sched) (now : Int) :
    Sched × Nat × Option String :=
  if now - s.last_wakeup < s.next_wakeup then (s, 0, none)
  else
    let r := scanTimers cbs now s.timer_list sysMaxsize 0
    match r.2.2.2.2 with
    | some e =>
      ({ s with timer_list := r.1, next_wakeup := r.2.1 }, r.2.2.2.1, some e)
    | none =>
      let ts := if r.2.2.1 > 0 then r.1.filter (fun t => t.timer_start.isSome) else r.1
      ({ timer_list := ts, last_wakeup := now, next_wakeup := r.2.1 },
        r.2.2.2.1, none)

/-! ### Registry search -/

/-- Does the context's window intersect the window derived from an event
of timestamp `t`? -/
def hits (t : Int) (c : Context) : Bool := (c.intersectEvent t).isSome

/-- The committed widening `checkTimeWindow` performs on a hit:
`time_min := min(itmin, time_min)`; `time_max := max(itmax, time_max)`
only when bounded. -/
def widen (t : Int) (c : Context) : Context :=
  { c with
    time_min := min (t - c.options.expire) c.time_min,
    time_max := if c.time_max ≠ -1 then max (t + c.options.expire) c.time_max
                else c.time_max }

/-- `search(name, idmef, update)` restricted to the bucket of the name:
walk the bucket in insertion order, calling `checkTimeWindow` on each,
and return the first context reporting an intersection (together with
the bucket as left after the in-place window commits). -/
def searchBucket (bucket : List Context) (t : Int) (update : Bool) :
    Option Context × List Context :=
  match bucket with
  | [] => (none, [])
  | c :: rest =>
    let r := c.checkTimeWindow t update
    if r.1 then (some r.2, r.2 :: rest)
    else
      let s := searchBucket rest t update
      (s.1, c :: s.2)

/-- Reference form of the in-place effect of `search` with
`update=True`: only the first hit is widened. -/
def updateFirstHit (t : Int) : List Context → List Context
  | [] => []
  | c :: rest =>
    if hits t c then widen t c :: rest
    else c :: updateFirstHit t rest

/-- A concrete context with the given window and otherwise default
fields, used to instantiate theorems on concrete inputs. -/
def mkCtx (tmin tmax : Int) : Context :=
  { name := "A", time_min := tmin, time_max := tmax, update_count := 0,
    options := { threshold := -1, expire := 0, alert_on_expire := .off },
    timer_start := none, timer_expire := 0,
    acc := { sources := [], targets := [], alertidents := [] } }

/-! ### Theorems -/

/-- The intersection test succeeds exactly on the source's disjunction. -/
theorem intersectW_isSome (tmin tmax itmin itmax : Int) :
    (intersectW tmin tmax itmin itmax).isSome = true ↔
      ((itmin ≤ tmin ∧ (tmax = -1 ∨ itmax ≥ tmin)) ∨
       (itmin ≥ tmin ∧ (tmax = -1 ∨ itmin ≤ tmax))) := by
  unfold intersectW
  split <;> simp_all

/-- Claim C1 (counterexample): the intersection test is not symmetric
once one upper edge is unbounded.  Window `A = [0, 10]` does not test as
intersecting `B = [20, unbounded)`, but `B` tests as intersecting `A`. -/
theorem intersect_symm_cex :
    (intersectW 0 10 20 (-1)).isSome = false ∧
    (intersectW 20 (-1) 0 10).isSome = true := by
  constructor <;> rfl

/-- Claim C1 (amended): the intersection test is symmetric for every
pair of well-formed windows that are both bounded, and any two windows
that are both unbounded always test as intersecting (in both orders);
symmetry can fail only when exactly one upper edge is unbounded. -/
theorem intersect_symm_amended (a0 a1 b0 b1 : Int)
    (ha : a0 ≤ a1) (hb : b0 ≤ b1) (ha1 : a1 ≠ -1) (hb1 : b1 ≠ -1) :
    ((intersectW a0 a1 b0 b1).isSome = true ↔
     (intersectW b0 b1 a0 a1).isSome = true) ∧
    ((intersectW a0 (-1) b0 (-1)).isSome = true ∧
     (intersectW b0 (-1) a0 (-1)).isSome = true) := by
  refine ⟨?_, ?_, ?_⟩ <;> simp [intersectW_isSome] <;> omega

/-- Witness for `intersect_symm_amended` at the bounded windows
`[0, 10]` and `[5, 20]`. -/
theorem intersect_symm_amended_witness :
    ((0 : Int) ≤ 10 ∧ (5 : Int) ≤ 20 ∧ (10 : Int) ≠ -1 ∧ (20 : Int) ≠ -1) ∧
    (((intersectW 0 10 5 20).isSome = true ↔
      (intersectW 5 20 0 10).isSome = true) ∧
     ((intersectW 0 (-1) 5 (-1)).isSome = true ∧
      (intersectW 5 (-1) 0 (-1)).isSome = true)) :=
  ⟨by decide,
   intersect_symm_amended 0 10 5 20 (by decide) (by decide) (by decide) (by decide)⟩

/-- Claim C2 (counterexample): an unbounded upper edge does not survive.
The intersection test of `[0, 10]` against the unbounded candidate
`[5, unbounded)` succeeds but returns the bounded union `(0, 10)`, and
merging the unbounded context `[5, unbounded)` with the bounded
`[0, 10]` (windows that intersect) commits the bounded upper edge `10`. -/
theorem window_unbounded_cex :
    intersectW 0 10 5 (-1) = some (0, 10) ∧
    ((mkCtx 5 (-1)).intersectCtx (mkCtx 0 10)).isSome = true ∧
    ((mkCtx 5 (-1)).mergeCtx (mkCtx 0 10)).time_max = 10 := by
  refine ⟨rfl, rfl, rfl⟩

/-- Claim C2 (amended): `checkTimeWindow`'s commit preserves the
surviving context's own unboundedness (a `time_max = -1` stays `-1`),
but a candidate's unbounded edge is treated as the number `-1`, and the
merged upper edge is the numeric maximum, so it is unbounded only when
both inputs' upper edges are unbounded (edges being `≥ -1`). -/
theorem window_unbounded_amended (c a b : Context) (t : Int) (u : Bool)
    (hc : c.time_max = -1) (ha : -1 ≤ a.time_max) (hb : -1 ≤ b.time_max) :
    ((c.checkTimeWindow t u).2.time_max = -1) ∧
    ((a.mergeCtx b).time_max = -1 ↔ (a.time_max = -1 ∧ b.time_max = -1)) := by
  constructor
  · unfold Context.checkTimeWindow
    cases h : c.intersectEvent t
    · simpa using hc
    · cases u <;> simp [hc]
  · simp only [Context.mergeCtx]
    omega

/-- Witness for `window_unbounded_amended`: the unbounded context
`[0, unbounded)` keeps its open edge through `checkTimeWindow`, and
merging two unbounded windows stays unbounded. -/
theorem window_unbounded_amended_witness :
    ((mkCtx 0 (-1)).time_max = -1 ∧
     -1 ≤ (mkCtx 2 (-1)).time_max ∧ -1 ≤ (mkCtx 3 (-1)).time_max) ∧
    (((mkCtx 0 (-1)).checkTimeWindow 4 true).2.time_max = -1) ∧
    (((mkCtx 2 (-1)).mergeCtx (mkCtx 3 (-1))).time_max = -1 ↔
      ((mkCtx 2 (-1)).time_max = -1 ∧ (mkCtx 3 (-1)).time_max = -1)) :=
  ⟨by decide,
   window_unbounded_amended (mkCtx 0 (-1)) (mkCtx 2 (-1)) (mkCtx 3 (-1)) 4 true
     (by decide) (by decide) (by decide)⟩

/-- Claim C3: merging `B` into `A` (two same-name contexts with
intersecting windows) sums the update counts, takes the componentwise
min/max of the two windows, appends `B`'s accumulated source/target/
identifier references to `A`'s record, leaves `A`'s own timer fields
and options untouched, and removes `B` from the registry bucket
(`B.destroy()` drops one occurrence of `B`). -/
theorem merge_spec (A B : Context) (bucket : List Context)
    (hname : A.name = B.name) (hint : (A.intersectCtx B).isSome = true)
    (hB : B ∈ bucket) :
    (A.mergeCtx B).update_count = A.update_count + B.update_count ∧
    (A.mergeCtx B).time_min = min A.time_min B.time_min ∧
    (A.mergeCtx B).time_max = max A.time_max B.time_max ∧
    (A.mergeCtx B).acc.sources = A.acc.sources ++ B.acc.sources ∧
    (A.mergeCtx B).acc.targets = A.acc.targets ++ B.acc.targets ∧
    (A.mergeCtx B).acc.alertidents = A.acc.alertidents ++ B.acc.alertidents ∧
    (A.mergeCtx B).timer_start = A.timer_start ∧
    (A.mergeCtx B).timer_expire = A.timer_expire ∧
    (A.mergeCtx B).options = A.options ∧
    (destroyFromBucket bucket B).count B + 1 = bucket.count B := by
  refine ⟨rfl, rfl, rfl, rfl, rfl, rfl, rfl, rfl, rfl, ?_⟩
  have h1 : (bucket.erase B).count B = bucket.count B - 1 :=
    List.count_erase_self B bucket
  have h2 : 0 < bucket.count B := List.count_pos_iff.mpr hB
  unfold destroyFromBucket
  omega

/-- Witness for `merge_spec`: the spec's example, windows `[0, 10]` and
`[5, 20]` under one name, merge into `[0, 20]`, the counts add, and the
other context leaves the bucket. -/
theorem merge_spec_witness :
    ((mkCtx 0 10).name = (mkCtx 5 20).name ∧
     ((mkCtx 0 10).intersectCtx (mkCtx 5 20)).isSome = true ∧
     mkCtx 5 20 ∈ [mkCtx 0 10, mkCtx 5 20]) ∧
    (((mkCtx 0 10).mergeCtx (mkCtx 5 20)).time_min = min 0 5 ∧
     ((mkCtx 0 10).mergeCtx (mkCtx 5 20)).time_max = max 10 20 ∧
     (destroyFromBucket [mkCtx 0 10, mkCtx 5 20] (mkCtx 5 20)).count (mkCtx 5 20) + 1 =
       [mkCtx 0 10, mkCtx 5 20].count (mkCtx 5 20)) := by
  have h := merge_spec (mkCtx 0 10) (mkCtx 5 20) [mkCtx 0 10, mkCtx 5 20]
    (by decide) (by decide) (by decide)
  exact ⟨⟨by decide, by decide, by decide⟩, h.2.1, h.2.2.1, h.2.2.2.2.2.2.2.2.2⟩

/-- Claim C4: when the timer of a context with truthy `alert_on_expire`
expires, the alert path (`Context._alert`) is taken iff the threshold is
unset (`-1`) or `update_count + 1 >= threshold`; otherwise the context
is destroyed silently. -/
theorem expire_threshold_spec (cbs : CtxCbs) (c : Context)
    (h : c.options.alert_on_expire.truthy = true) :
    ((c.timerExpireCb cbs).2.1.isAlert = true ↔
      (c.options.threshold = -1 ∨
        c.options.threshold ≤ (c.update_count : Int) + 1)) ∧
    (¬(c.options.threshold = -1 ∨
        c.options.threshold ≤ (c.update_count : Int) + 1) →
      (c.timerExpireCb cbs).2.1 = ExpireAction.silentDestroy) := by
  unfold Context.timerExpireCb
  split
  · next hcond =>
    constructor
    · refine ⟨fun _ => hcond.2, fun _ => ?_⟩
      unfold Context.alertPath
      cases hk : c.options.alert_on_expire <;> simp [hk] <;> rfl
    · intro hno
      exact absurd hcond.2 hno
  · next hcond =>
    constructor
    · constructor
      · intro hbad
        simp [ExpireAction.isAlert] at hbad
      · intro hthr
        exact absurd ⟨h, hthr⟩ hcond
    · intro _
      rfl

/-- Witness for `expire_threshold_spec`: threshold 3 with two prior
updates alerts at expiry, per the spec's worked example. -/
theorem expire_threshold_spec_witness :
    (({ mkCtx 0 10 with
        options := { threshold := 3, expire := 0, alert_on_expire := .on },
        update_count := 2 } : Context).options.alert_on_expire.truthy = true) ∧
    (({ mkCtx 0 10 with
        options := { threshold := 3, expire := 0, alert_on_expire := .on },
        update_count := 2 } : Context).timerExpireCb
          (fun _ c => (c, none))).2.1.isAlert = true := by
  refine ⟨by decide, ?_⟩
  exact (expire_threshold_spec (fun _ c => (c, none)) _ (by decide)).1.mpr (by decide)

/-- A context armed like a live timer: window `[0, 10]`, expiry 5,
started at 0, `alert_on_expire` a rule-supplied callable. -/
def cbCtx : Context :=
  { mkCtx 0 10 with
    options := { threshold := -1, expire := 5, alert_on_expire := .cb 0 },
    timer_start := some 0, timer_expire := 5 }

/-- A callable environment whose callback raises. -/
def raiseCbs : CtxCbs := fun _ c => (c, some "boom")

/-- A callable environment whose callback only bumps a counter (it does
not stop, destroy or re-arm the context's timer). -/
def bumpCbs : CtxCbs := fun _ c => ({ c with update_count := c.update_count + 1 }, none)

/-- A plain-timer callback environment that leaves the timer as the
expiry path handed it over (stopped). -/
def constCbs : TimerCbs := fun _ u => (u, none)

/-- Claim C5 (amended): a plain Timer's `check` never propagates an
exception — `Timer._timerExpireCallback` stops the timer and invokes the
callback inside try/except, whatever the callback does. -/
theorem timer_check_no_propagate (cbs : TimerCbs) (t : STimer) (now : Int) :
    (STimer.check cbs t now).2 = none := by
  unfold STimer.check
  cases hs : t.timer_start
  · simp [checkGen, hs]
  · next st =>
    by_cases hif : t.timer_expire ≤ now - st
    · by_cases harm : ((STimer.timerExpireCb cbs t).1.timer_start).isSome = true
      · simp [checkGen, hs, hif, STimer.timerExpireCb, harm]
        simp [STimer.timerExpireCb] at harm
        simp [harm]
      · simp [checkGen, hs, hif, STimer.timerExpireCb] at harm ⊢
        simp [harm]
    · simp [checkGen, hs, hif]

/-- Claim C5 (counterexample): a Context's embedded timer does propagate
a failure from its expiry callback — `Context._timerExpireCallback`
overrides the guarded plain-timer path without any exception handler, so
a raising `alert_on_expire` callable escapes `check` (and `wakeup`). -/
theorem ctx_check_propagates_cex :
    (Context.check raiseCbs cbCtx 10).2 = some "boom" := by
  rfl

/-- Claim C6 (counterexample): a Context whose expiry path runs a
rule-supplied `alert_on_expire` callable (here one that merely bumps the
update counter) is never disarmed by the expiry — `Context._alert` stops
the timer only on the destroy path — so the same expiry fires the
callback again on the next check without any re-arming. -/
theorem ctx_timer_refires_cex :
    (Context.check bumpCbs cbCtx 10).1.1.update_count = 1 ∧
    (Context.check bumpCbs cbCtx 10).1.1.timer_start = some 0 ∧
    (Context.check bumpCbs ((Context.check bumpCbs cbCtx 10).1.1) 11).1.1.update_count = 2 := by
  refine ⟨rfl, rfl, rfl⟩

/-- A truthy remaining-time result from a plain-timer check means the
timer is still armed afterwards. -/
theorem check_ret_some_armed (cbs : TimerCbs) (t : STimer) (now : Int) (r : Int)
    (h : (STimer.check cbs t now).1.2 = some r) :
    (STimer.check cbs t now).1.1.timer_start.isSome = true := by
  unfold STimer.check checkGen at h ⊢
  cases hs : t.timer_start
  · simp [hs] at h
  · next st =>
    by_cases hif : t.timer_expire ≤ now - st
    · by_cases harm : ((STimer.timerExpireCb cbs t).1.timer_start).isSome = true
      · simp [hs, hif, STimer.timerExpireCb] at harm ⊢
        simp [harm]
      · simp [hs, hif, STimer.timerExpireCb] at harm h
        simp [harm] at h
    · simp [hs, hif]

/-- The falsy-result counter of the wakeup scan never decreases. -/
theorem scanTimers_i_mono (cbs : TimerCbs) (now : Int) (ts : List STimer)
    (a : Int) (i : Nat) : i ≤ (scanTimers cbs now ts a i).2.2.1 := by
  induction ts generalizing a i with
  | nil => simp [scanTimers]
  | cons t rest ih =>
    cases he : (STimer.check cbs t now).2
    · cases hr : (STimer.check cbs t now).1.2
      · simp [scanTimers, he, hr]
        exact Nat.le_trans (Nat.le_succ i) (ih a (i + 1))
      · next ret =>
        by_cases h0 : ret = 0
        · simp [scanTimers, he, hr, h0]
          exact Nat.le_trans (Nat.le_succ i) (ih a (i + 1))
        · simp [scanTimers, he, hr, h0]
          exact ih (min ret a) i
    · simp [scanTimers, he]

/-- If a wakeup scan completes without an exception and records no falsy
check result, every timer it leaves in the list is still armed. -/
theorem scanTimers_all_armed (cbs : TimerCbs) (now : Int) (ts : List STimer)
    (a : Int) (i : Nat)
    (herr : (scanTimers cbs now ts a i).2.2.2.2 = none)
    (hi : (scanTimers cbs now ts a i).2.2.1 = i) :
    ∀ u ∈ (scanTimers cbs now ts a i).1, u.timer_start.isSome = true := by
  induction ts generalizing a i with
  | nil => simp [scanTimers]
  | cons t rest ih =>
    cases he : (STimer.check cbs t now).2
    · cases hr : (STimer.check cbs t now).1.2
      · exfalso
        simp [scanTimers, he, hr] at hi
        have := scanTimers_i_mono cbs now rest a (i + 1)
        omega
      · next r =>
        by_cases h0 : r = 0
        · exfalso
          simp [scanTimers, he, hr, h0] at hi
          have := scanTimers_i_mono cbs now rest a (i + 1)
          omega
        · simp [scanTimers, he, hr, h0] at herr hi ⊢
          constructor
          · exact check_ret_some_armed cbs t now r hr
          · exact ih (min r a) i herr hi
    · simp [scanTimers, he] at herr

/-- A concrete armed plain timer: started at 0, expiry 5. -/
def t0 : STimer := ⟨some 0, 5, 0, 0⟩

/-- `Timer.check` on a stopped timer returns immediately. -/
theorem check_stopped (cbs : TimerCbs) (x : STimer) (n : Int)
    (hx : x.timer_start = none) : STimer.check cbs x n = ((x, none), none) := by
  unfold STimer.check checkGen
  simp [hx]

/-- Claim C6 (amended): for a plain Timer, whose expiry path stops the
timer before invoking the callback: an expired check fires the callback
exactly once; with a callback that does not re-arm, the timer is left
disarmed and a subsequent check does nothing; and a wakeup scan that
completes leaves only armed timers in the scheduler's active list. -/
theorem timer_fires_once_amended (cbs : TimerCbs) (t : STimer)
    (now now2 s0 : Int)
    (hfired : ∀ k u, ((cbs k u).1).fired = u.fired)
    (hnoarm : ∀ k u, ((cbs k u).1).timer_start = u.timer_start)
    (hs : t.timer_start = some s0) (he : t.timer_expire ≤ now - s0) :
    ((STimer.check cbs t now).1.1.fired = t.fired + 1) ∧
    ((STimer.check cbs t now).1.1.timer_start = none) ∧
    (STimer.check cbs (STimer.check cbs t now).1.1 now2 =
      (((STimer.check cbs t now).1.1, none), none)) ∧
    (∀ (s : Sched) (now3 : Int), ¬(now3 - s.last_wakeup < s.next_wakeup) →
      (wakeup cbs s now3).2.2 = none →
      ∀ u ∈ (wakeup cbs s now3).1.timer_list, u.timer_start.isSome = true) := by
  have hstate : (STimer.check cbs t now).1.1 =
      (cbs t.cb_id { t.stop with fired := t.fired + 1 }).1 := by
    unfold STimer.check checkGen
    simp [hs, he, STimer.timerExpireCb, hnoarm, STimer.stop]
  have h1 : (STimer.check cbs t now).1.1.fired = t.fired + 1 := by
    rw [hstate, hfired]
  have h2 : (STimer.check cbs t now).1.1.timer_start = none := by
    rw [hstate, hnoarm]
    rfl
  refine ⟨h1, h2, check_stopped cbs _ now2 h2, ?_⟩
  · intro s now3 hg herr u hu
    cases hscan : (scanTimers cbs now3 s.timer_list sysMaxsize 0).2.2.2.2
    · by_cases hip : (scanTimers cbs now3 s.timer_list sysMaxsize 0).2.2.1 > 0
      · simp [wakeup, hg, hscan, hip] at hu
        exact hu.2
      · have hi0 : (scanTimers cbs now3 s.timer_list sysMaxsize 0).2.2.1 = 0 :=
          Nat.eq_zero_of_not_pos hip
        simp [wakeup, hg, hscan, hip] at hu
        exact scanTimers_all_armed cbs now3 s.timer_list sysMaxsize 0 hscan hi0 u hu
    · simp [wakeup, hg, hscan] at herr

/-- Witness for `timer_fires_once_amended` at a timer started at 0 with
expiry 5, checked at time 10 and again at 11, with a callback that
neither raises nor re-arms. -/
theorem timer_fires_once_amended_witness :
    ((∀ k u, ((constCbs k u).1).fired = u.fired) ∧
     (∀ k u, ((constCbs k u).1).timer_start = u.timer_start) ∧
     t0.timer_start = some 0 ∧ t0.timer_expire ≤ 10 - 0) ∧
    (((STimer.check constCbs t0 10).1.1.fired = t0.fired + 1) ∧
     ((STimer.check constCbs t0 10).1.1.timer_start = none) ∧
     (STimer.check constCbs (STimer.check constCbs t0 10).1.1 11 =
       (((STimer.check constCbs t0 10).1.1, none), none)) ∧
     (∀ (s : Sched) (now3 : Int), ¬(now3 - s.last_wakeup < s.next_wakeup) →
       (wakeup constCbs s now3).2.2 = none →
       ∀ u ∈ (wakeup constCbs s now3).1.timer_list, u.timer_start.isSome = true)) :=
  ⟨⟨fun _ _ => rfl, fun _ _ => rfl, rfl, by decide⟩,
   timer_fires_once_amended constCbs t0 10 11 0
     (fun _ _ => rfl) (fun _ _ => rfl) rfl (by decide)⟩

/-- Scanner for a bare underscore: `false` iff the list contains an
underscore whose immediately preceding character (`prev` before the
list's head) is not a backslash. -/
def noBare (prev : Char) : List Char → Bool
  | [] => true
  | c :: rest => if c = '_' ∧ prev ≠ '\\' then false else noBare c rest

/-- The last character of a list, with a default for the empty list. -/
def lastD : List Char → Char → Char
  | [], d => d
  | c :: cs, _ => lastD cs c

/-- Every underscore `escape` emits is preceded by the backslash it just
inserted, so an escaped string never contains a bare underscore. -/
theorem noBare_escape (t : List Char) : ∀ prev, noBare prev (escapeU t) = true := by
  induction t with
  | nil => intro prev; rfl
  | cons c cs ih =>
    intro prev
    by_cases hc : c = '_'
    · subst hc
      have hb : ¬(('\\' : Char) = '_') := by decide
      simp [escapeU, noBare, hb, ih]
    · simp [escapeU, hc, noBare, ih]

/-- The bare-underscore scan distributes over append, threading the last
character of the first part as the context of the second. -/
theorem noBare_append (l1 : List Char) : ∀ (l2 : List Char) (prev : Char),
    noBare prev (l1 ++ l2) = (noBare prev l1 && noBare (lastD l1 prev) l2) := by
  induction l1 with
  | nil => intro l2 prev; simp [noBare, lastD]
  | cons c cs ih =>
    intro l2 prev
    by_cases hcond : c = '_' ∧ prev ≠ '\\'
    · simp [noBare, hcond, lastD]
    · simp only [List.cons_append, noBare, lastD, if_neg hcond]
      exact ih l2 c

/-- Escaping a backslash-free component never ends in a backslash
(given a non-backslash default for the empty case). -/
theorem lastD_escape_ne (s : List Char) : ∀ prev : Char, '\\' ∉ s → prev ≠ '\\' →
    lastD (escapeU s) prev ≠ '\\' := by
  induction s with
  | nil => intro prev _ hp; exact hp
  | cons c cs ih =>
    intro prev hmem hp
    have hcs : '\\' ∉ cs := fun h => hmem (List.mem_cons_of_mem c h)
    have hc : c ≠ '\\' := fun h => hmem (h ▸ List.mem_cons_self c cs)
    by_cases hu : c = '_'
    · subst hu
      show lastD ('\\' :: '_' :: escapeU cs) prev ≠ '\\'
      show lastD (escapeU cs) '_' ≠ '\\'
      exact ih '_' hcs (by decide)
    · show lastD (if c = '_' then '\\' :: '_' :: escapeU cs else c :: escapeU cs) prev ≠ '\\'
      rw [if_neg hu]
      show lastD (escapeU cs) c ≠ '\\'
      exact ih c hcs hc

/-- Claim C7 (counterexample): underscore escaping does not escape the
escape character itself, so a multi-component name can equal a
single-string name that contains literal underscores:
`getName(["a\\", "b"])` and `getName("a_b")` both yield the four
characters `a`, backslash, underscore, `b`. -/
theorem getName_collision_cex :
    getNameSeq [['a', '\\'], ['b']] = getName1 ['a', '_', 'b'] := by
  decide

/-- Claim C7 (amended): `getName` is deterministic, the spec's example
pair `getName(["a_b", "c"])` and `getName("a_b_c")` do differ, and a
multi-component name whose leading component is backslash-free never
equals any single-string name; collisions require a backslash in the
component before a join. -/
theorem getName_spec_amended (s y t : List Char) (rest : List (List Char))
    (hs : '\\' ∉ s) :
    (getNameSeq (s :: y :: rest) = getNameSeq (s :: y :: rest)) ∧
    (getNameSeq [['a', '_', 'b'], ['c']] ≠ getName1 ['a', '_', 'b', '_', 'c']) ∧
    (getNameSeq (s :: y :: rest) ≠ getName1 t) := by
  refine ⟨rfl, by decide, ?_⟩
  intro heq
  have hsplit : getNameSeq (s :: y :: rest) =
      escapeU s ++ '_' :: getNameSeq (y :: rest) := rfl
  have h1 : noBare 'x' (getNameSeq (s :: y :: rest)) = false := by
    rw [hsplit, noBare_append]
    have h2 : lastD (escapeU s) 'x' ≠ '\\' := lastD_escape_ne s 'x' hs (by decide)
    simp [noBare, h2]
  have h3 : noBare 'x' (getName1 t) = true := noBare_escape t 'x'
  rw [heq, h3] at h1
  exact absurd h1 (by decide)

/-- Witness for `getName_spec_amended` on `["a", "b"]` against the
single string `"a_b"`. -/
theorem getName_spec_amended_witness :
    ('\\' ∉ ['a']) ∧
    ((getNameSeq [['a'], ['b']] = getNameSeq [['a'], ['b']]) ∧
     (getNameSeq [['a', '_', 'b'], ['c']] ≠ getName1 ['a', '_', 'b', '_', 'c']) ∧
     (getNameSeq [['a'], ['b']] ≠ getName1 ['a', '_', 'b'])) :=
  ⟨by decide, getName_spec_amended ['a'] ['b'] ['a', '_', 'b'] [] (by decide)⟩

/-- `Timer.start` never touches the accumulation record or the counter. -/
theorem timerStart_acc_count (c : Context) (r : Bool) (n : Int) :
    (c.timerStart r n).acc = c.acc ∧ (c.timerStart r n).update_count = c.update_count := by
  unfold Context.timerStart
  split <;> exact ⟨rfl, rfl⟩

/-- `setOptions` never touches the accumulation record or the counter. -/
theorem setOptions_acc_count (c : Context) (p : OptPatch) (n : Int) :
    (c.setOptions p n).acc = c.acc ∧ (c.setOptions p n).update_count = c.update_count := by
  unfold Context.setOptions
  exact timerStart_acc_count _ false n

/-- The fall-through tail of `update` keeps the record and counter and
reports a normal outcome. -/
theorem finishUpdate_frame (c : Context) (p : OptPatch) (rst : Bool) (n : Int) :
    (c.finishUpdate p rst n).1.acc = c.acc ∧
    (c.finishUpdate p rst n).1.update_count = c.update_count ∧
    (c.finishUpdate p rst n).2.1 = UpdateOutcome.normal ∧
    (c.finishUpdate p rst n).2.2 = none := by
  unfold Context.finishUpdate
  split
  · refine ⟨?_, ?_, rfl, rfl⟩
    · rw [(setOptions_acc_count _ p n).1, (timerStart_acc_count c true n).1]
    · rw [(setOptions_acc_count _ p n).2, (timerStart_acc_count c true n).2]
  · exact ⟨(setOptions_acc_count c p n).1, (setOptions_acc_count c p n).2, rfl, rfl⟩

/-- Claim C8 (amended): an `update` that supplies a source event forces
the immediate `_alert` path iff `alert_on_expire` is truthy and the
incremented `update_count` has reached `_IDMEF_QUEUE_LIMIT` (256) — the
cap is on the update counter, not on the number of accumulated events;
below the cap the event is accumulated normally and the counter grows
by one. -/
theorem update_cap_amended (cbs : CtxCbs) (c : Context) (e : Event)
    (p : OptPatch) (rst : Bool) (now : Int) :
    (((Context.update cbs c p (some e) rst now).2.1 ≠ UpdateOutcome.normal) ↔
      (c.options.alert_on_expire.truthy = true ∧
        idmefQueueLimit ≤ c.update_count + 1)) ∧
    (¬(c.options.alert_on_expire.truthy = true ∧
        idmefQueueLimit ≤ c.update_count + 1) →
      ((Context.update cbs c p (some e) rst now).1.acc.alertidents =
         c.acc.alertidents ++ [e.ident] ∧
       (Context.update cbs c p (some e) rst now).1.update_count = c.update_count + 1 ∧
       (Context.update cbs c p (some e) rst now).2.1 = UpdateOutcome.normal)) := by
  by_cases hcond : c.options.alert_on_expire.truthy = true ∧
      idmefQueueLimit ≤ c.update_count + 1
  · constructor
    · refine ⟨fun _ => hcond, fun _ => ?_⟩
      simp [Context.update, Context.addAlertReference, hcond]
    · intro hno
      exact absurd hcond hno
  · have hred : Context.update cbs c p (some e) rst now =
        (({ c with update_count := c.update_count + 1 } : Context).addAlertReference e).finishUpdate p rst now := by
      simp [Context.update, Context.addAlertReference, hcond]
    constructor
    · constructor
      · intro hne
        exfalso
        apply hne
        rw [hred]
        exact (finishUpdate_frame _ p rst now).2.2.1
      · intro hyes
        exact absurd hyes hcond
    · intro _
      rw [hred]
      refine ⟨?_, ?_, (finishUpdate_frame _ p rst now).2.2.1⟩
      · rw [(finishUpdate_frame _ p rst now).1]
        rfl
      · rw [(finishUpdate_frame _ p rst now).2.1]
        rfl

/-- Witness for `update_cap_amended`: an update with a source event on a
context with 10 prior updates and alerting enabled stays below the cap
and accumulates normally. -/
theorem update_cap_amended_witness :
    (((Context.update raiseCbs { mkCtx 0 10 with
        options := { threshold := -1, expire := 0, alert_on_expire := .on },
        update_count := 10 } ⟨none, none, none⟩
          (some ⟨7, [], [], "id"⟩) false 7).2.1 ≠ UpdateOutcome.normal) ↔
      (({ mkCtx 0 10 with
        options := { threshold := -1, expire := 0, alert_on_expire := .on },
        update_count := 10 } : Context).options.alert_on_expire.truthy = true ∧
        idmefQueueLimit ≤ 10 + 1)) :=
  (update_cap_amended raiseCbs _ ⟨7, [], [], "id"⟩ ⟨none, none, none⟩ false 7).1

/-- Claim C8 (counterexample): the cap tracks `update_count`, not the
accumulated events.  A context with 200 prior updates and 255 already
accumulated events accumulates a 256th event with no alert, while a
context with 255 prior updates and no accumulated events alerts
immediately on its first source event. -/
theorem update_cap_cex :
    ((Context.update raiseCbs { mkCtx 0 10 with
        options := { threshold := -1, expire := 0, alert_on_expire := .on },
        update_count := 200,
        acc := ⟨[], [], List.replicate 255 "s"⟩ } ⟨none, none, none⟩
          (some ⟨7, [], [], "id"⟩) false 7).2.1 = UpdateOutcome.normal ∧
     (Context.update raiseCbs { mkCtx 0 10 with
        options := { threshold := -1, expire := 0, alert_on_expire := .on },
        update_count := 200,
        acc := ⟨[], [], List.replicate 255 "s"⟩ } ⟨none, none, none⟩
          (some ⟨7, [], [], "id"⟩) false 7).1.acc.alertidents.length = 256) ∧
    ((Context.update raiseCbs { mkCtx 0 10 with
        options := { threshold := -1, expire := 0, alert_on_expire := .on },
        update_count := 255 } ⟨none, none, none⟩
          (some ⟨7, [], [], "id"⟩) false 7).2.1 =
        UpdateOutcome.alerted ExpireAction.alertEmitDestroy ∧
     (Context.update raiseCbs { mkCtx 0 10 with
        options := { threshold := -1, expire := 0, alert_on_expire := .on },
        update_count := 255 } ⟨none, none, none⟩
          (some ⟨7, [], [], "id"⟩) false 7).1.acc.alertidents.length = 1) := by
  refine ⟨⟨?_, ?_⟩, ?_, ?_⟩ <;> rfl

/-- `wakeup` returns immediately, with no timer checks and no state
change, whenever not enough time has passed since the last scan. -/
theorem wakeup_early (cbs : TimerCbs) (s : Sched) (n : Int)
    (h : n - s.last_wakeup < s.next_wakeup) : wakeup cbs s n = (s, 0, none) := by
  unfold wakeup
  rw [if_pos h]

/-- After a wakeup call that scans and completes, `_last_wakeup` is the
time it was called with. -/
theorem wakeup_scan_last (cbs : TimerCbs) (s : Sched) (n : Int)
    (h : ¬(n - s.last_wakeup < s.next_wakeup))
    (hok : (wakeup cbs s n).2.2 = none) :
    (wakeup cbs s n).1.last_wakeup = n := by
  cases hscan : (scanTimers cbs n s.timer_list sysMaxsize 0).2.2.2.2
  · simp [wakeup, h, hscan]
  · simp [wakeup, h, hscan] at hok

/-- Claim C9 (amended): when the first call `wakeup(now1)` actually
scans (enough time had passed) and completes without a callback
exception, a second call `wakeup(now2)` with `now2 - now1` below the
recorded `nextWakeup` returns immediately: it checks no timer and
leaves the scheduler state unchanged.  (When the first call itself
early-returns, `lastWakeup` still predates `now1` and the guard can let
the second call scan.) -/
theorem wakeup_skip_amended (cbs : TimerCbs) (s : Sched) (now1 now2 : Int)
    (h1 : ¬(now1 - s.last_wakeup < s.next_wakeup))
    (hok : (wakeup cbs s now1).2.2 = none)
    (h2 : now2 - now1 < (wakeup cbs s now1).1.next_wakeup) :
    wakeup cbs (wakeup cbs s now1).1 now2 = ((wakeup cbs s now1).1, 0, none) := by
  apply wakeup_early
  rw [wakeup_scan_last cbs s now1 h1 hok]
  exact h2

/-- Witness for `wakeup_skip_amended`: one armed timer with expiry 10
started at 0; the first wakeup at 15 scans and fires it, the second at
16 returns untouched. -/
theorem wakeup_skip_amended_witness :
    (¬((15 : Int) - (⟨[⟨some 0, 10, 1, 0⟩], 0, 10⟩ : Sched).last_wakeup <
        (⟨[⟨some 0, 10, 1, 0⟩], 0, 10⟩ : Sched).next_wakeup) ∧
     (wakeup constCbs ⟨[⟨some 0, 10, 1, 0⟩], 0, 10⟩ 15).2.2 = none ∧
     (16 : Int) - 15 < (wakeup constCbs ⟨[⟨some 0, 10, 1, 0⟩], 0, 10⟩ 15).1.next_wakeup) ∧
    wakeup constCbs (wakeup constCbs ⟨[⟨some 0, 10, 1, 0⟩], 0, 10⟩ 15).1 16 =
      ((wakeup constCbs ⟨[⟨some 0, 10, 1, 0⟩], 0, 10⟩ 15).1, 0, none) :=
  ⟨⟨by decide, by decide, by decide⟩,
   wakeup_skip_amended constCbs ⟨[⟨some 0, 10, 1, 0⟩], 0, 10⟩ 15 16
     (by decide) (by decide) (by decide)⟩

/-- Claim C9 (counterexample): if the first of the two consecutive calls
itself returned early, the guard — which compares against `_last_wakeup`,
not against the previous call's time — lets the second call scan even
though `now2 - now1 < nextWakeup`: here `wakeup(8)` is skipped, then
`wakeup(15)` with `15 - 8 = 7 < 10` checks (and fires) the timer and
mutates the scheduler state. -/
theorem wakeup_skip_cex :
    (wakeup constCbs ⟨[⟨some 0, 10, 1, 0⟩], 0, 10⟩ 8 =
      (⟨[⟨some 0, 10, 1, 0⟩], 0, 10⟩, 0, none)) ∧
    ((15 : Int) - 8 < (wakeup constCbs ⟨[⟨some 0, 10, 1, 0⟩], 0, 10⟩ 8).1.next_wakeup) ∧
    ((wakeup constCbs (wakeup constCbs ⟨[⟨some 0, 10, 1, 0⟩], 0, 10⟩ 8).1 15).2.1 = 1) ∧
    ((wakeup constCbs (wakeup constCbs ⟨[⟨some 0, 10, 1, 0⟩], 0, 10⟩ 8).1 15).1 ≠
      (wakeup constCbs ⟨[⟨some 0, 10, 1, 0⟩], 0, 10⟩ 8).1) := by
  refine ⟨?_, ?_, ?_, ?_⟩ <;> decide

/-- `checkTimeWindow` reports a hit exactly when the derived windows
intersect, and its only in-place effect is the `widen` commit on a hit
with `update=True`. -/
theorem checkTimeWindow_eq (c : Context) (t : Int) (u : Bool) :
    c.checkTimeWindow t u = (hits t c, if hits t c ∧ u then widen t c else c) := by
  unfold Context.checkTimeWindow hits widen
  cases h : c.intersectEvent t
  · simp [h]
  · next i =>
    have hi : i = (min (t - c.options.expire) c.time_min,
        max (t + c.options.expire) c.time_max) := by
      unfold Context.intersectEvent intersectW at h
      split at h
      · exact (Option.some_inj.mp h).symm
      · cases h
    subst hi
    simp [h]
    cases u <;> simp

/-- With `update=False`, `search` walks the bucket untouched and returns
the first context whose window intersects. -/
theorem searchBucket_false (t : Int) (bucket : List Context) :
    (searchBucket bucket t false).2 = bucket ∧
    (searchBucket bucket t false).1 = bucket.find? (hits t) := by
  induction bucket with
  | nil => exact ⟨rfl, rfl⟩
  | cons c rest ih =>
    unfold searchBucket
    rw [checkTimeWindow_eq]
    cases hc : hits t c
    · simp [hc, List.find?, ih.1, ih.2]
    · simp [hc, List.find?]

/-- With `update=True`, `search` returns the first intersecting context,
already widened, and the bucket is the original with exactly that first
hit widened in place. -/
theorem searchBucket_true (t : Int) (bucket : List Context) :
    (searchBucket bucket t true).1 = (bucket.find? (hits t)).map (widen t) ∧
    (searchBucket bucket t true).2 = updateFirstHit t bucket := by
  induction bucket with
  | nil => exact ⟨rfl, rfl⟩
  | cons c rest ih =>
    unfold searchBucket updateFirstHit
    rw [checkTimeWindow_eq]
    cases hc : hits t c
    · simp [hc, List.find?, ih.1, ih.2]
    · simp [hc, List.find?]

/-- Claim C10: `search(name, event, update)` returns the first context
in the name's bucket (insertion order) whose window intersects the
event's derived window; with `update=True` the returned context's window
is already widened by the lookup itself — `time_min` lowered to the
union's lower bound, `time_max` raised only when bounded — and only that
first hit is modified; with `update=False` no context is modified. -/
theorem search_spec (bucket : List Context) (t : Int) :
    ((searchBucket bucket t false).2 = bucket) ∧
    ((searchBucket bucket t false).1 = bucket.find? (hits t)) ∧
    ((searchBucket bucket t true).1 = (bucket.find? (hits t)).map (widen t)) ∧
    ((searchBucket bucket t true).2 = updateFirstHit t bucket) ∧
    (∀ c : Context, (widen t c).time_min = min (t - c.options.expire) c.time_min) ∧
    (∀ c : Context, c.time_max = -1 → (widen t c).time_max = c.time_max) := by
  refine ⟨(searchBucket_false t bucket).1, (searchBucket_false t bucket).2,
    (searchBucket_true t bucket).1, (searchBucket_true t bucket).2,
    fun c => rfl, fun c hc => ?_⟩
  unfold widen
  simp [hc]

/-- Witness for `search_spec` on a one-element bucket holding an
unbounded-window context probed at time 5. -/
theorem search_spec_witness :
    ((searchBucket [mkCtx 0 (-1)] 5 false).2 = [mkCtx 0 (-1)]) ∧
    ((mkCtx 0 (-1)).time_max = -1 ∧
      (widen 5 (mkCtx 0 (-1))).time_max = (mkCtx 0 (-1)).time_max) :=
  ⟨(search_spec [mkCtx 0 (-1)] 5).1,
   ⟨by decide, (search_spec [mkCtx 0 (-1)] 5).2.2.2.2.2 (mkCtx 0 (-1)) (by decide)⟩⟩

end PreludeCorrelator
